import Mathlib

/-!
# Verification of the calendar-weather sync engine

Shallow embedding of the incremental synchronization and idempotent
title-rewrite engine of `src/index.js` (the active, second copy of the
program: `getWeatherInfo`, `updateCalendarEvents`, `watchForChanges`),
together with proofs of the specification's claims about it.

Strings are modelled through their character lists (`String.data`);
timestamps are epoch milliseconds as `Int`; the two external REST
collaborators (calendar list/patch, weather forecast) are oracles passed
in as functions, and thrown JS exceptions are modelled with `Except`.
-/

set_option maxHeartbeats 1000000

namespace CalendarWeather

/-! ## Title codec

`src/index.js` lines 387-390:
```js
let cleanTitle = event.summary.replace(/\([^)]*\)/g, '').trim();
cleanTitle = cleanTitle.replace(/[\u{1F300}-\u{1F9FF}]/gu, '').trim();
const newTitle = `${cleanTitle} ${weatherDesc}`;
```
-/

/-- The character set removed by JavaScript `String.prototype.trim`
(ECMAScript WhiteSpace and LineTerminator code points). -/
def isJsSpace (c : Char) : Bool :=
  c = ' ' || c = '\t' || c = '\n' || c = '\r' ||
  c.toNat = 0x0B || c.toNat = 0x0C || c.toNat = 0xA0 ||
  c.toNat = 0x1680 || (0x2000 ≤ c.toNat && c.toNat ≤ 0x200A) ||
  c.toNat = 0x2028 || c.toNat = 0x2029 || c.toNat = 0x202F ||
  c.toNat = 0x205F || c.toNat = 0x3000 || c.toNat = 0xFEFF

/-- Remove trailing JS whitespace. -/
def trimBack (l : List Char) : List Char :=
  (l.reverse.dropWhile isJsSpace).reverse

/-- JavaScript `.trim()` on a character list: drop whitespace at both ends. -/
def trimChars (l : List Char) : List Char :=
  (trimBack l).dropWhile isJsSpace

/-- Scan for the first `')'`; on success return the remainder after it.
This is the extent of a match of the regex `\([^)]*\)` after its `(`. -/
def dropToClose : List Char → Option (List Char)
  | [] => none
  | c :: rest => if c = ')' then some rest else dropToClose rest

/-- Fuelled worker for `removeParens`; fuel `≥` length makes it total.
Mirrors the global regex replace `.replace(/\([^)]*\)/g, '')`: at a `'('`
that has some `')'` after it, the whole group up to the first `')'` is
dropped and scanning resumes; a `'('` with no later `')'` never matches,
and then no later character can start a match either. -/
def removeParensF : Nat → List Char → List Char
  | 0, l => l
  | _ + 1, [] => []
  | fuel + 1, c :: rest =>
    if c = '(' then
      match dropToClose rest with
      | some rest' => removeParensF fuel rest'
      | none => c :: rest
    else
      c :: removeParensF fuel rest

/-- `title.replace(/\([^)]*\)/g, '')` on a character list. -/
def removeParens (l : List Char) : List Char :=
  removeParensF l.length l

/-- Membership in the emoji code-point range `U+1F300`-`U+1F9FF` of the
regex `/[\u{1F300}-\u{1F9FF}]/gu`. -/
def isEmojiChar (c : Char) : Bool :=
  0x1F300 ≤ c.toNat && c.toNat ≤ 0x1F9FF

/-- `title.replace(/[\u{1F300}-\u{1F9FF}]/gu, '')` on a character list. -/
def removeEmoji (l : List Char) : List Char :=
  l.filter (fun c => !isEmojiChar c)

/-- Both cleaning passes of `updateCalendarEvents`, each followed by
`.trim()` exactly as in the source. -/
def stripChars (l : List Char) : List Char :=
  trimChars (removeEmoji (trimChars (removeParens l)))

/-- The clean title derived from a possibly decorated title
(`src/index.js` lines 387-388). -/
def stripTitle (s : String) : String :=
  ⟨stripChars s.data⟩

/-- Fuelled decimal digits of a natural number, most significant first. -/
def natDigitsF : Nat → Nat → List Char
  | 0, _ => []
  | fuel + 1, n =>
    if n < 10 then [Nat.digitChar n]
    else natDigitsF fuel (n / 10) ++ [Nat.digitChar (n % 10)]

/-- Decimal digits of a natural number (fuel `n + 1` always suffices). -/
def natDigits (n : Nat) : List Char :=
  natDigitsF (n + 1) n

/-- JavaScript number-to-string for integers, as produced by the template
literal `` `(${condition}, ${Math.round(tempC)}°C)` ``. -/
def intToStr (i : Int) : String :=
  if i < 0 then ⟨'-' :: natDigits (-i).toNat⟩ else ⟨natDigits i.toNat⟩

/-- The weather descriptor string `"(<condition>, <temp>°C)"` built by
`getWeatherInfo` (`src/index.js` line 323). -/
def renderDescriptor (cond : String) (temp : Int) : String :=
  "(" ++ cond ++ ", " ++ intToStr temp ++ "°C)"

/-- `` `${cleanTitle} ${weatherDesc}` `` (`src/index.js` line 390). -/
def composeTitle (clean desc : String) : String :=
  clean ++ " " ++ desc

/-! ## Structure of the regex-stripped text

After the global replace of `\([^)]*\)` no `'('` is ever followed by a
`')'`; this invariant (`NoPairs`) is what makes the strip idempotent. -/

/-- The list splits as a `'('`-free part followed by a `')'`-free part;
equivalently, no remaining `'('` has a `')'` anywhere after it. -/
def NoPairs (l : List Char) : Prop :=
  ∃ a b, l = a ++ b ∧ '(' ∉ a ∧ ')' ∉ b

/-! ## Weather lookup: `getWeatherInfo` (`src/index.js` lines 292-328) -/

/-- `1000 * 60 * 60 * 24` milliseconds. -/
def msPerDay : Int := 86400000

/-- `Math.ceil((eventDate - now) / 86400000)` on integral millisecond
timestamps: ceiling division, via floor division of the negation. -/
def jsCeilDiv (a b : Int) : Int := -((-a).fdiv b)

/-- One entry of `forecast.hour`. `timeHour` is
`new Date(h.time).getHours()`; `tempC` is the integral `Math.round` of
`h.temp_c` (the model works with the rounded integer directly). -/
structure HourData where
  timeHour : Nat
  conditionText : String
  tempC : Int
deriving DecidableEq

/-- One entry of `res.data.forecast.forecastday`; `dateKey` is
`new Date(day.date).toDateString()`. -/
structure ForecastDay where
  dateKey : String
  hour : List HourData
deriving DecidableEq

/-- `res.data.forecast`. -/
structure ForecastResponse where
  forecastday : List ForecastDay
deriving DecidableEq

/-- `getWeatherInfo(eventDate)`. The `axios.get` of the forecast URL is the
`resp` argument; a failure of the call (or any other throw inside `try`)
reaches the `catch` and yields `"(weather unavailable)"`. `eventDateKey`
and `eventHour` stand for `eventDate.toDateString()` and
`eventDate.getHours()`. The far-horizon guard returns
`"(forecast unavailable)"` before any network access; a missing matching
forecast day also yields `"(forecast unavailable)"`; an empty
`forecast.hour` makes `forecast.hour[0]` undefined so the member access
throws and is caught. The function never throws. -/
def getWeatherInfo (now eventDate : Int) (eventDateKey : String)
    (eventHour : Nat) (resp : Except String ForecastResponse) : String :=
  let daysDifference := jsCeilDiv (eventDate - now) msPerDay
  if 14 < daysDifference then "(forecast unavailable)"
  else
    match resp with
    | .error _ => "(weather unavailable)"
    | .ok r =>
      match r.forecastday.find? (fun day => day.dateKey == eventDateKey) with
      | none => "(forecast unavailable)"
      | some forecast =>
        match (forecast.hour.find? (fun h => h.timeHour == eventHour)).orElse
            (fun _ => forecast.hour.head?) with
        | none => "(weather unavailable)"
        | some hourData =>
          renderDescriptor hourData.conditionText.toLower hourData.tempC

/-! ## Sync engine: `updateCalendarEvents` (`src/index.js` lines 335-418) -/

/-- A calendar event as read by the engine: `event.id`, `event.summary`,
and the epoch milliseconds of `event.start.dateTime || event.start.date`. -/
structure Event where
  id : String
  summary : String
  start : Int
deriving DecidableEq

/-- `res.data` of `calendar.events.list`: an absent `nextSyncToken` is
`none`, an absent `items` is `[]`. -/
structure ListResponse where
  nextSyncToken : Option String
  items : List Event
deriving DecidableEq

/-- Errors thrown by the calendar collaborator, discriminated exactly as
the `catch` does: `error.code === 410` versus anything else. -/
inductive CalendarError where
  | gone
  | transport (msg : String)
deriving DecidableEq

/-- The `listParams` object as passed to `calendar.events.list` (the
constant fields `calendarId`, `singleEvents`, `orderBy` are omitted). -/
structure ListParams where
  syncToken : Option String
  timeMin : Option Int
  timeMax : Option Int
deriving DecidableEq

/-- JS truthiness of the `syncToken` argument (`if (syncToken)`): `null`
and the empty string are falsy. -/
def tokenTruthy : Option String → Bool
  | none => false
  | some s => !s.isEmpty

/-- Lines 344-359: params start with the 7-day `timeMin`/`timeMax` bounds;
a truthy sync token is then set and the bounds deleted. -/
def buildListParams (syncToken : Option String) (timeMin timeMax : Int) :
    ListParams :=
  if tokenTruthy syncToken then
    { syncToken := syncToken, timeMin := none, timeMax := none }
  else
    { syncToken := none, timeMin := some timeMin, timeMax := some timeMax }

/-- The environment of one cycle: the two calendar operations
(`calendar.events.list`, `calendar.events.patch` keyed by event id and new
summary), the weather lookup for an event start (which never throws), and
the cycle's `new Date()` value. -/
structure Env where
  fetch : ListParams → Except CalendarError ListResponse
  patch : String → String → Except CalendarError Unit
  weather : Int → String
  now : Int

/-- The module-level mutable `lastSyncToken`. -/
structure SyncState where
  lastSyncToken : Option String
deriving DecidableEq

/-- Lines 387-390: `newTitle` = strip of the summary composed with the
weather descriptor for the event's start. -/
def candidateTitle (env : Env) (e : Event) : String :=
  composeTitle (stripTitle e.summary) (env.weather e.start)

/-- The observable outcome for one visited event. -/
inductive EventAction where
  | skipped (id : String)
  | unchanged (id : String)
  | patched (id : String) (newTitle : String)
  | patchFailed (id : String)
deriving DecidableEq

/-- The `for (const event of events)` loop (lines 375-405): events past
`timeMax` are skipped with `continue` before any weather lookup; an
unchanged title issues no patch; a patch that throws propagates out of the
loop (to the surrounding `catch`), so later events are not visited — the
thrown error is returned alongside the actions. -/
def processEvents (env : Env) (timeMax : Int) :
    List Event → List EventAction × Option CalendarError
  | [] => ([], none)
  | e :: rest =>
    if timeMax < e.start then
      let r := processEvents env timeMax rest
      (.skipped e.id :: r.1, r.2)
    else
      let newTitle := candidateTitle env e
      if newTitle = e.summary then
        let r := processEvents env timeMax rest
        (.unchanged e.id :: r.1, r.2)
      else
        match env.patch e.id newTitle with
        | .ok _ =>
          let r := processEvents env timeMax rest
          (.patched e.id newTitle :: r.1, r.2)
        | .error err => ([.patchFailed e.id], some err)

/-- Everything observable about one `updateCalendarEvents` call: the
`events.list` calls issued (in order, across 410 retries), each token
capture `lastSyncToken = res.data.nextSyncToken`, the per-event actions,
the error reported via `console.error` (if any), and whether the model's
fuel cut off the source's unbounded 410 recursion. -/
structure CycleReport where
  fetches : List ListParams
  captured : List (Option String)
  actions : List EventAction
  surfaced : Option CalendarError
  exhausted : Bool
deriving DecidableEq

/-- One call of `updateCalendarEvents(auth, syncToken)` (lines 335-418).
The `catch` (lines 408-417) re-enters the function recursively on a 410
error — whether thrown by the fetch or by a patch — after resetting
`lastSyncToken` to `null`; any other error is logged and the call
returns. The source's early return on `!events || events.length === 0`
(after the token capture) produces exactly the `([], none)` result of the
loop on an empty list, so the two paths are folded into one arm here.
`fuel` bounds the recursion depth of the model; `env.now` stands for the
`new Date()` taken at the start of a cycle. -/
def updateCalendarEvents (env : Env) :
    Nat → Option String → SyncState → SyncState × CycleReport
  | 0, _, st => (st, ⟨[], [], [], none, true⟩)
  | fuel + 1, syncToken, st =>
    let timeMin := env.now
    let timeMax := env.now + 7 * msPerDay
    let params := buildListParams syncToken timeMin timeMax
    match env.fetch params with
    | .error .gone =>
      let r := updateCalendarEvents env fuel none ⟨none⟩
      (r.1, { r.2 with fetches := params :: r.2.fetches })
    | .error (.transport m) =>
      (st, ⟨[params], [], [], some (.transport m), false⟩)
    | .ok resp =>
      match processEvents env timeMax resp.items with
      | (acts, none) =>
        (⟨resp.nextSyncToken⟩, ⟨[params], [resp.nextSyncToken], acts, none, false⟩)
      | (acts, some .gone) =>
        let r := updateCalendarEvents env fuel none ⟨none⟩
        (r.1, { r.2 with
                fetches := params :: r.2.fetches,
                captured := resp.nextSyncToken :: r.2.captured,
                actions := acts ++ r.2.actions })
      | (acts, some (.transport m)) =>
        (⟨resp.nextSyncToken⟩,
         ⟨[params], [resp.nextSyncToken], acts, some (.transport m), false⟩)

/-- `watchForChanges(auth)` (lines 424-430): one cycle run with the
current `lastSyncToken`. -/
def watchForChanges (env : Env) (fuel : Nat) (st : SyncState) :
    SyncState × CycleReport :=
  updateCalendarEvents env fuel st.lastSyncToken st

/-- The id an action refers to. -/
def EventAction.idOf : EventAction → String
  | .skipped i => i
  | .unchanged i => i
  | .patched i _ => i
  | .patchFailed i => i

/-- Whether the action corresponds to an issued `calendar.events.patch`. -/
def EventAction.isPatchCall : EventAction → Bool
  | .patched _ _ => true
  | .patchFailed _ => true
  | _ => false

/-- Whether the action is the `continue` skip. -/
def EventAction.isSkip : EventAction → Bool
  | .skipped _ => true
  | _ => false

/-! ### Concrete collaborators for witnesses and counterexamples -/

/-- `t` is a suffix of `s` (used to state what a title "ends in"). -/
def endsWithStr (s t : String) : Bool :=
  t.data.isSuffixOf s.data

def evC2a : Event := ⟨"e1", "A", 1000⟩

def evC2b : Event := ⟨"e2", "B", 1000⟩

def evC2z : Event := ⟨"e0", "Z", 1000⟩

/-- Two events; patching the first throws a transport error. -/
def envC2 : Env where
  fetch := fun _ => .ok ⟨some "T", [evC2a, evC2b]⟩
  patch := fun id _ => if id = "e1" then .error (.transport "boom") else .ok ()
  weather := fun _ => "(w, 1°C)"
  now := 0

/-- Three events; patching the second throws a transport error. -/
def envC2w : Env where
  fetch := fun _ => .ok ⟨some "T", [evC2z, evC2a, evC2b]⟩
  patch := fun id _ => if id = "e1" then .error (.transport "boom") else .ok ()
  weather := fun _ => "(w, 1°C)"
  now := 0

/-- Token-based fetch fails with 410; the token-less fetch succeeds. -/
def envC3 : Env where
  fetch := fun p => match p.syncToken with
    | some _ => .error .gone
    | none => .ok ⟨some "B", []⟩
  patch := fun _ _ => .ok ()
  weather := fun _ => "(w, 1°C)"
  now := 0

/-- Every fetch fails with 410. -/
def envC3cex : Env where
  fetch := fun _ => .error .gone
  patch := fun _ _ => .ok ()
  weather := fun _ => "(w, 1°C)"
  now := 0

def evC5 : Event := ⟨"e1", "Meeting", 1000⟩

/-- Token-based fetch succeeds with next-token "A" and one event whose
patch throws 410; the token-less retry fetch returns next-token "B". -/
def envC5 : Env where
  fetch := fun p => match p.syncToken with
    | some _ => .ok ⟨some "A", [evC5]⟩
    | none => .ok ⟨some "B", []⟩
  patch := fun _ _ => .error .gone
  weather := fun _ => "(sunny, 5°C)"
  now := 0

/-- Fetch succeeds with zero events. -/
def envC5w : Env where
  fetch := fun _ => .ok ⟨some "T", []⟩
  patch := fun _ _ => .ok ()
  weather := fun _ => "(w, 1°C)"
  now := 0

def evC6 : Event := ⟨"e1", "Standup", 1000⟩

/-- One event whose title needs decorating; patch succeeds. -/
def envC6w : Env where
  fetch := fun _ => .ok ⟨some "T", [evC6]⟩
  patch := fun _ _ => .ok ()
  weather := fun _ => "(w, 1°C)"
  now := 0

/-- Every fetch fails with a transport error. -/
def envC7w : Env where
  fetch := fun _ => .error (.transport "ECONNRESET")
  patch := fun _ _ => .ok ()
  weather := fun _ => "(w, 1°C)"
  now := 0

def evC9in : Event := ⟨"e1", "A (w, 1°C)", 1000⟩

def evC9out : Event := ⟨"e2", "B", 10000000000⟩

/-- One event inside the 7-day bound (already decorated) and one far
beyond it, as a sync-token response could return. -/
def envC9w : Env where
  fetch := fun _ => .ok ⟨some "T", [evC9in, evC9out]⟩
  patch := fun _ _ => .ok ()
  weather := fun _ => "(w, 1°C)"
  now := 0

/-- Fetch succeeds but returns an empty-string next-token. -/
def envC10w : Env where
  fetch := fun _ => .ok ⟨some "", []⟩
  patch := fun _ _ => .ok ()
  weather := fun _ => "(w, 1°C)"
  now := 0

def evC10 : Event := ⟨"e1", "Meeting", 1000⟩

/-- The token-based fetch succeeds with an empty (falsy) next-token and
one event whose patch then rejects with 410; the resync's token-less
fetch returns the truthy token "R". -/
def envC10cex : Env where
  fetch := fun p => match p.syncToken with
    | some _ => .ok ⟨some "", [evC10]⟩
    | none => .ok ⟨some "R", []⟩
  patch := fun _ _ => .error .gone
  weather := fun _ => "(w, 1°C)"
  now := 0

/-! ## Proofs about the title codec -/

theorem NoPairs.nil : NoPairs [] :=
  ⟨[], [], rfl, by simp, by simp⟩

theorem noPairs_of_no_close {l : List Char} (h : ')' ∉ l) : NoPairs l :=
  ⟨[], l, rfl, by simp, h⟩

theorem NoPairs.cons {c : Char} {l : List Char} (hc : c ≠ '(')
    (h : NoPairs l) : NoPairs (c :: l) := by
  obtain ⟨a, b, rfl, ha, hb⟩ := h
  refine ⟨c :: a, b, rfl, ?_, hb⟩
  simp only [List.mem_cons, not_or]
  exact ⟨Ne.symm hc, ha⟩

theorem NoPairs.sublist {m l : List Char} (hs : List.Sublist m l) (h : NoPairs l) :
    NoPairs m := by
  obtain ⟨a, b, rfl, ha, hb⟩ := h
  obtain ⟨ma, mb, rfl, hma, hmb⟩ := List.sublist_append_iff.mp hs
  exact ⟨ma, mb, rfl, fun hm => ha (hma.subset hm), fun hm => hb (hmb.subset hm)⟩

theorem dropToClose_length : ∀ {l l' : List Char},
    dropToClose l = some l' → l'.length < l.length := by
  intro l
  induction l with
  | nil => intro l' h; simp [dropToClose] at h
  | cons c rest ih =>
    intro l' h
    simp only [dropToClose] at h
    split at h
    · cases h; exact Nat.lt_succ_self _
    · exact Nat.lt_trans (ih h) (Nat.lt_succ_self _)

theorem dropToClose_eq_none {l : List Char} :
    dropToClose l = none ↔ ')' ∉ l := by
  induction l with
  | nil => simp [dropToClose]
  | cons c rest ih =>
    by_cases hc : c = ')'
    · subst hc; simp [dropToClose]
    · simp [dropToClose, hc, ih, Ne.symm hc]

theorem dropToClose_append {x y : List Char} (h : ')' ∉ x) :
    dropToClose (x ++ ')' :: y) = some y := by
  induction x with
  | nil => simp [dropToClose]
  | cons c rest ih =>
    simp only [List.mem_cons, not_or] at h
    simp only [List.cons_append, dropToClose]
    rw [if_neg (Ne.symm h.1)]
    exact ih h.2

theorem removeParensF_congr : ∀ {f g : Nat} {l : List Char},
    l.length ≤ f → l.length ≤ g → removeParensF f l = removeParensF g l := by
  intro f
  induction f with
  | zero =>
    intro g l hf _
    have h0 : l = [] := List.length_eq_zero.mp (Nat.le_zero.mp hf)
    subst h0
    cases g <;> simp [removeParensF]
  | succ f ih =>
    intro g l hf hg
    cases g with
    | zero =>
      have h0 : l = [] := List.length_eq_zero.mp (Nat.le_zero.mp hg)
      subst h0; simp [removeParensF]
    | succ g =>
      cases l with
      | nil => simp [removeParensF]
      | cons c rest =>
        have hf' : rest.length ≤ f := Nat.le_of_succ_le_succ hf
        have hg' : rest.length ≤ g := Nat.le_of_succ_le_succ hg
        by_cases hc : c = '('
        · subst hc
          simp only [removeParensF, if_pos rfl]
          cases hdt : dropToClose rest with
          | none => rfl
          | some rest' =>
            have hlt := dropToClose_length hdt
            exact ih (Nat.le_of_lt (Nat.lt_of_lt_of_le hlt hf'))
              (Nat.le_of_lt (Nat.lt_of_lt_of_le hlt hg'))
        · simp only [removeParensF, if_neg hc]
          exact congrArg (c :: ·) (ih hf' hg')

theorem removeParensF_eq {f : Nat} {l : List Char} (h : l.length ≤ f) :
    removeParensF f l = removeParens l :=
  removeParensF_congr h (Nat.le_refl _)

theorem removeParens_nil : removeParens [] = [] := rfl

theorem removeParens_cons_ne {c : Char} (rest : List Char) (hc : c ≠ '(') :
    removeParens (c :: rest) = c :: removeParens rest := by
  show removeParensF (rest.length + 1) (c :: rest) = _
  simp only [removeParensF, if_neg hc]
  rfl

theorem removeParens_open_some {rest rest' : List Char}
    (h : dropToClose rest = some rest') :
    removeParens ('(' :: rest) = removeParens rest' := by
  show removeParensF (rest.length + 1) ('(' :: rest) = _
  simp only [removeParensF, if_pos rfl, h]
  exact removeParensF_eq (Nat.le_of_lt (dropToClose_length h))

theorem removeParens_open_none {rest : List Char}
    (h : dropToClose rest = none) :
    removeParens ('(' :: rest) = '(' :: rest := by
  show removeParensF (rest.length + 1) ('(' :: rest) = _
  simp [removeParensF, h]

theorem noPairs_removeParens_aux : ∀ (n : Nat) (l : List Char),
    l.length ≤ n → NoPairs (removeParens l) := by
  intro n
  induction n with
  | zero =>
    intro l h
    have h0 : l = [] := List.length_eq_zero.mp (Nat.le_zero.mp h)
    subst h0; exact NoPairs.nil
  | succ n ih =>
    intro l h
    cases l with
    | nil => exact NoPairs.nil
    | cons c rest =>
      have hr : rest.length ≤ n := Nat.le_of_succ_le_succ h
      by_cases hc : c = '('
      · subst hc
        cases hdt : dropToClose rest with
        | some rest' =>
          rw [removeParens_open_some hdt]
          exact ih rest' (Nat.le_of_lt (Nat.lt_of_lt_of_le (dropToClose_length hdt) hr))
        | none =>
          rw [removeParens_open_none hdt]
          refine noPairs_of_no_close ?_
          simp only [List.mem_cons, not_or]
          exact ⟨by decide, dropToClose_eq_none.mp hdt⟩
      · rw [removeParens_cons_ne rest hc]
        exact NoPairs.cons hc (ih rest hr)

/-- The regex pass establishes the `NoPairs` invariant. -/
theorem noPairs_removeParens (l : List Char) : NoPairs (removeParens l) :=
  noPairs_removeParens_aux l.length l (Nat.le_refl _)

theorem removeParens_eq_self_aux : ∀ (n : Nat) (l : List Char),
    l.length ≤ n → NoPairs l → removeParens l = l := by
  intro n
  induction n with
  | zero =>
    intro l h _
    have h0 : l = [] := List.length_eq_zero.mp (Nat.le_zero.mp h)
    subst h0; rfl
  | succ n ih =>
    intro l h hnp
    cases l with
    | nil => rfl
    | cons c rest =>
      have hr : rest.length ≤ n := Nat.le_of_succ_le_succ h
      by_cases hc : c = '('
      · subst hc
        obtain ⟨a, b, heq, ha, hb⟩ := hnp
        cases a with
        | cons a0 a' =>
          exfalso
          rw [List.cons_append] at heq
          injection heq with h1 h2
          exact ha (h1 ▸ List.mem_cons_self a0 a')
        | nil =>
          have hbl : '(' :: rest = b := by simpa using heq
          have hnc : ')' ∉ rest := by
            intro hm
            exact hb (hbl ▸ List.mem_cons_of_mem _ hm)
          exact removeParens_open_none (dropToClose_eq_none.mpr hnc)
      · rw [removeParens_cons_ne rest hc]
        have : NoPairs rest :=
          NoPairs.sublist (List.sublist_cons_self c rest) hnp
        rw [ih rest hr this]

/-- On a `NoPairs` list the regex pass is the identity. -/
theorem removeParens_eq_self {l : List Char} (h : NoPairs l) :
    removeParens l = l :=
  removeParens_eq_self_aux l.length l (Nat.le_refl _) h

/-! ## Trim and emoji-pass lemmas -/

theorem dropWhile_append_singleton {p : Char → Bool} :
    ∀ {x : List Char} {c : Char},
    (x ++ [c]).dropWhile p = x ++ [c] → x.dropWhile p = x := by
  intro x
  induction x with
  | nil => intro c _; rfl
  | cons a x' _ =>
    intro c h
    by_cases ha : p a
    · exfalso
      rw [List.cons_append, List.dropWhile_cons_of_pos ha] at h
      have hle := ((x' ++ [c]).dropWhile_sublist p).length_le
      rw [h] at hle
      simp [List.length_append] at hle
    · rw [List.dropWhile_cons_of_neg ha]

theorem trimBack_idem (l : List Char) : trimBack (trimBack l) = trimBack l := by
  unfold trimBack
  rw [List.reverse_reverse, List.dropWhile_idempotent]

theorem trimBack_dropWhile : ∀ {l : List Char}, trimBack l = l →
    trimBack (l.dropWhile isJsSpace) = l.dropWhile isJsSpace := by
  intro l
  induction l with
  | nil => intro _; rfl
  | cons c rest ih =>
    intro h
    by_cases hc : isJsSpace c
    · rw [List.dropWhile_cons_of_pos hc]
      apply ih
      have h' : (rest.reverse ++ [c]).dropWhile isJsSpace = rest.reverse ++ [c] := by
        have h3 := congrArg List.reverse h
        rw [trimBack, List.reverse_reverse, List.reverse_cons] at h3
        exact h3
      have h2 := dropWhile_append_singleton h'
      rw [trimBack, h2, List.reverse_reverse]
    · rw [List.dropWhile_cons_of_neg hc]
      exact h

theorem trimChars_idem (l : List Char) :
    trimChars (trimChars l) = trimChars l := by
  unfold trimChars
  rw [trimBack_dropWhile (trimBack_idem l), List.dropWhile_idempotent]

theorem trimBack_sublist (l : List Char) : List.Sublist (trimBack l) l := by
  apply List.reverse_sublist.mp
  rw [trimBack, List.reverse_reverse]
  exact List.dropWhile_sublist _

theorem trimChars_sublist (l : List Char) : List.Sublist (trimChars l) l :=
  (List.dropWhile_sublist _).trans (trimBack_sublist l)

theorem trimChars_append_space (x : List Char) :
    trimChars (x ++ [' ']) = trimChars x := by
  unfold trimChars trimBack
  have h1 : (x ++ [' ']).reverse = ' ' :: x.reverse := by simp
  rw [h1, List.dropWhile_cons_of_pos (show isJsSpace ' ' = true by decide)]

theorem removeEmoji_sublist (l : List Char) :
    List.Sublist (removeEmoji l) l :=
  List.filter_sublist l

theorem removeEmoji_eq_self {l : List Char}
    (h : ∀ c ∈ l, isEmojiChar c = false) : removeEmoji l = l :=
  List.filter_eq_self.mpr (fun a ha => by simp [h a ha])

theorem emoji_false_of_mem_removeEmoji {l : List Char} {c : Char}
    (h : c ∈ removeEmoji l) : isEmojiChar c = false := by
  have h2 := (List.mem_filter.mp h).2
  simpa using h2

/-- One full strip pass leaves a fixed point of every phase. -/
theorem stripChars_idem (l : List Char) :
    stripChars (stripChars l) = stripChars l := by
  set r := stripChars l with hr
  have hsub : List.Sublist r (removeParens l) := by
    rw [hr]; unfold stripChars
    exact (trimChars_sublist _).trans
      ((removeEmoji_sublist _).trans (trimChars_sublist _))
  have hnp : NoPairs r := NoPairs.sublist hsub (noPairs_removeParens l)
  have h1 : removeParens r = r := removeParens_eq_self hnp
  have htr : trimChars r = r := by rw [hr]; unfold stripChars; exact trimChars_idem _
  have hem : removeEmoji r = r := by
    apply removeEmoji_eq_self
    intro c hc
    have hmem : c ∈ removeEmoji (trimChars (removeParens l)) := by
      have hss := (trimChars_sublist (removeEmoji (trimChars (removeParens l)))).subset
      rw [hr] at hc; unfold stripChars at hc
      exact hss hc
    exact emoji_false_of_mem_removeEmoji hmem
  show stripChars r = r
  unfold stripChars
  rw [h1, htr, hem, htr]

/-- **C4 — confirmed.** Idempotence of strip: for every string `s`,
`strip(strip(s)) = strip(s)`, where `strip` first removes every substring
matching an opening parenthesis, non-close-parenthesis characters and a
closing parenthesis, then removes every character in the emoji range
`U+1F300`-`U+1F9FF`, trimming surrounding whitespace after each pass
(`src/index.js` lines 387-388). -/
theorem strip_idempotent (s : String) :
    stripTitle (stripTitle s) = stripTitle s :=
  congrArg String.mk (stripChars_idem s.data)

/-! ## Round-trip of compose and strip -/

theorem removeParens_append_no_open {x y : List Char} (h : '(' ∉ x) :
    removeParens (x ++ y) = x ++ removeParens y := by
  induction x with
  | nil => simp
  | cons c rest ih =>
    simp only [List.mem_cons, not_or] at h
    rw [List.cons_append, removeParens_cons_ne _ (Ne.symm h.1), ih h.2]
    rfl

theorem removeParens_group {inner : List Char} (y : List Char)
    (h : ')' ∉ inner) :
    removeParens ('(' :: inner ++ ')' :: y) = removeParens y :=
  removeParens_open_some (dropToClose_append h)

theorem natDigitsF_mem : ∀ {f n : Nat} {c : Char}, c ∈ natDigitsF f n →
    ∃ m, m < 10 ∧ c = Nat.digitChar m := by
  intro f
  induction f with
  | zero => intro n c h; simp [natDigitsF] at h
  | succ f ih =>
    intro n c h
    by_cases hn : n < 10
    · rw [natDigitsF, if_pos hn] at h
      simp only [List.mem_singleton] at h
      exact ⟨n, hn, h⟩
    · rw [natDigitsF, if_neg hn] at h
      rcases List.mem_append.mp h with h' | h'
      · exact ih h'
      · simp only [List.mem_singleton] at h'
        exact ⟨n % 10, Nat.mod_lt _ (by decide), h'⟩

theorem intToStr_no_close (i : Int) : ')' ∉ (intToStr i).data := by
  have hd : ∀ n : Nat, ')' ∉ natDigits n := by
    intro n h
    obtain ⟨m, hm, he⟩ := natDigitsF_mem h
    have hall : ∀ m : Nat, m < 10 → Nat.digitChar m ≠ ')' := by decide
    exact hall m hm he.symm
  unfold intToStr
  by_cases hi : i < 0
  · rw [if_pos hi]
    intro h
    rcases List.mem_cons.mp h with h' | h'
    · exact absurd h' (by decide)
    · exact hd _ h'
  · rw [if_neg hi]
    exact hd _

/-- **C1 — amended.** Round-trip stability of the title codec: for every
clean title `c` that contains no parentheses and no emoji **and carries no
leading or trailing whitespace**, and every descriptor whose condition
text **contains no `')'` character**, stripping the composed title returns
the clean title: `strip(compose(c, d)) = c`. (The two extra conditions
are forced by `strip_compose_roundtrip_cex`: `.trim()` eats surrounding
whitespace of the clean title, and a `')'` inside the condition text ends
the regex match early, leaving residue.) -/
theorem strip_compose_roundtrip (c cond : String) (temp : Int)
    (hpo : '(' ∉ c.data) (hpc : ')' ∉ c.data)
    (hem : ∀ ch ∈ c.data, isEmojiChar ch = false)
    (htr : trimChars c.data = c.data)
    (hcond : ')' ∉ cond.data) :
    stripTitle (composeTitle c (renderDescriptor cond temp)) = c := by
  have e1 : (" " : String).data = [' '] := rfl
  have e2 : (("(") : String).data = ['('] := rfl
  have e3 : ((", ") : String).data = [',', ' '] := rfl
  have e4 : (("°C)") : String).data = ['°', 'C', ')'] := rfl
  have hshape : (composeTitle c (renderDescriptor cond temp)).data
      = (c.data ++ [' ']) ++
        ('(' :: (cond.data ++ ',' :: ' ' ::
          ((intToStr temp).data ++ ['°', 'C'])) ++ [')']) := by
    simp only [composeTitle, renderDescriptor, String.data_append, e1, e2, e3, e4]
    simp [List.append_assoc]
  have hx : '(' ∉ c.data ++ [' '] := by
    simp only [List.mem_append, List.mem_singleton, not_or]
    exact ⟨hpo, by decide⟩
  have hinner : ')' ∉ cond.data ++ ',' :: ' ' ::
      ((intToStr temp).data ++ ['°', 'C']) := by
    simp only [List.mem_append, List.mem_cons, List.mem_singleton, not_or]
    refine ⟨hcond, by decide, by decide, intToStr_no_close temp, by decide, by decide⟩
  have key : stripChars (composeTitle c (renderDescriptor cond temp)).data
      = c.data := by
    unfold stripChars
    rw [hshape, removeParens_append_no_open hx,
      removeParens_group ([] : List Char) hinner, removeParens_nil,
      List.append_nil, trimChars_append_space, htr,
      removeEmoji_eq_self hem, htr]
  show String.mk (stripChars (composeTitle c (renderDescriptor cond temp)).data) = c
  rw [key]

/-- Witness for `strip_compose_roundtrip` at a concrete clean title and
descriptor. -/
theorem strip_compose_roundtrip_witness :
    stripTitle (composeTitle "Standup" (renderDescriptor "cloudy" 20)) =
      "Standup" :=
  strip_compose_roundtrip "Standup" "cloudy" 20 (by decide) (by decide)
    (by decide) (by decide) (by decide)

/-- **C1 — counterexample.** The round-trip law fails as stated: a clean
title with leading whitespace (no parentheses, no emoji) is not returned
intact, and neither is a clean title when the descriptor's condition text
contains `')'`. -/
theorem strip_compose_roundtrip_cex :
    stripTitle (composeTitle " a" (renderDescriptor "sunny" 5)) ≠ " a" ∧
    stripTitle (composeTitle "a" (renderDescriptor "x)y" 5)) ≠ "a" := by
  decide

/-! ### Unfolding lemmas for the event loop and the cycle -/

theorem processEvents_nil (env : Env) (t : Int) :
    processEvents env t [] = ([], none) := rfl

theorem processEvents_cons_skip {env : Env} {t : Int} {e : Event}
    (rest : List Event) (h : t < e.start) :
    processEvents env t (e :: rest) =
      (.skipped e.id :: (processEvents env t rest).1,
       (processEvents env t rest).2) := by
  simp [processEvents, h]

theorem processEvents_cons_unchanged {env : Env} {t : Int} {e : Event}
    (rest : List Event) (hb : ¬ t < e.start)
    (he : candidateTitle env e = e.summary) :
    processEvents env t (e :: rest) =
      (.unchanged e.id :: (processEvents env t rest).1,
       (processEvents env t rest).2) := by
  simp [processEvents, hb, he]

theorem processEvents_cons_patched {env : Env} {t : Int} {e : Event}
    (rest : List Event) (hb : ¬ t < e.start)
    (hne : candidateTitle env e ≠ e.summary)
    (hp : env.patch e.id (candidateTitle env e) = .ok ()) :
    processEvents env t (e :: rest) =
      (.patched e.id (candidateTitle env e) :: (processEvents env t rest).1,
       (processEvents env t rest).2) := by
  simp [processEvents, hb, hne, hp]

theorem processEvents_cons_patchFailed {env : Env} {t : Int} {e : Event}
    (rest : List Event) (hb : ¬ t < e.start)
    (hne : candidateTitle env e ≠ e.summary) {err : CalendarError}
    (hp : env.patch e.id (candidateTitle env e) = .error err) :
    processEvents env t (e :: rest) = ([.patchFailed e.id], some err) := by
  simp [processEvents, hb, hne, hp]

theorem processEvents_append_ok {env : Env} {t : Int} {l₁ : List Event}
    (l₂ : List Event) (h : (processEvents env t l₁).2 = none) :
    processEvents env t (l₁ ++ l₂) =
      ((processEvents env t l₁).1 ++ (processEvents env t l₂).1,
       (processEvents env t l₂).2) := by
  induction l₁ with
  | nil => simp [processEvents_nil]
  | cons e rest ih =>
    by_cases hb : t < e.start
    · rw [processEvents_cons_skip rest hb] at h
      rw [List.cons_append, processEvents_cons_skip (rest ++ l₂) hb, ih h,
        processEvents_cons_skip rest hb]
      simp
    · by_cases he : candidateTitle env e = e.summary
      · rw [processEvents_cons_unchanged rest hb he] at h
        rw [List.cons_append, processEvents_cons_unchanged (rest ++ l₂) hb he,
          ih h, processEvents_cons_unchanged rest hb he]
        simp
      · cases hp : env.patch e.id (candidateTitle env e) with
        | ok u =>
          cases u
          rw [processEvents_cons_patched rest hb he hp] at h
          rw [List.cons_append, processEvents_cons_patched (rest ++ l₂) hb he hp,
            ih h, processEvents_cons_patched rest hb he hp]
          simp
        | error err =>
          rw [processEvents_cons_patchFailed rest hb he hp] at h
          simp at h

theorem processEvents_append_err {env : Env} {t : Int} {l₁ : List Event}
    (l₂ : List Event) {err : CalendarError}
    (h : (processEvents env t l₁).2 = some err) :
    processEvents env t (l₁ ++ l₂) = processEvents env t l₁ := by
  induction l₁ with
  | nil => simp [processEvents_nil] at h
  | cons e rest ih =>
    by_cases hb : t < e.start
    · rw [processEvents_cons_skip rest hb] at h
      rw [List.cons_append, processEvents_cons_skip (rest ++ l₂) hb, ih h,
        processEvents_cons_skip rest hb]
    · by_cases he : candidateTitle env e = e.summary
      · rw [processEvents_cons_unchanged rest hb he] at h
        rw [List.cons_append, processEvents_cons_unchanged (rest ++ l₂) hb he,
          ih h, processEvents_cons_unchanged rest hb he]
      · cases hp : env.patch e.id (candidateTitle env e) with
        | ok u =>
          cases u
          rw [processEvents_cons_patched rest hb he hp] at h
          rw [List.cons_append, processEvents_cons_patched (rest ++ l₂) hb he hp,
            ih h, processEvents_cons_patched rest hb he hp]
        | error e' =>
          rw [List.cons_append,
            processEvents_cons_patchFailed (rest ++ l₂) hb he hp,
            processEvents_cons_patchFailed rest hb he hp]

/-- Every recorded action belongs to a listed event; skips are exactly the
events past the bound, and a patch is only ever issued for an event whose
candidate title differs from its summary. -/
theorem processEvents_sound {env : Env} {t : Int} :
    ∀ {l : List Event} {a : EventAction}, a ∈ (processEvents env t l).1 →
    ∃ e, e ∈ l ∧ a.idOf = e.id ∧
      (a.isSkip = true → t < e.start) ∧
      (a.isSkip = false → e.start ≤ t) ∧
      (a.isPatchCall = true → candidateTitle env e ≠ e.summary) := by
  intro l
  induction l with
  | nil => intro a ha; simp [processEvents_nil] at ha
  | cons e rest ih =>
    intro a ha
    by_cases hb : t < e.start
    · rw [processEvents_cons_skip rest hb] at ha
      rcases List.mem_cons.mp ha with h' | h'
      · subst h'
        exact ⟨e, List.mem_cons_self e rest, rfl,
          fun _ => hb, by simp [EventAction.isSkip], by simp [EventAction.isPatchCall]⟩
      · obtain ⟨e', he', rest'⟩ := ih h'
        exact ⟨e', List.mem_cons_of_mem e he', rest'⟩
    · by_cases he : candidateTitle env e = e.summary
      · rw [processEvents_cons_unchanged rest hb he] at ha
        rcases List.mem_cons.mp ha with h' | h'
        · subst h'
          exact ⟨e, List.mem_cons_self e rest, rfl,
            by simp [EventAction.isSkip], fun _ => Int.not_lt.mp hb,
            by simp [EventAction.isPatchCall]⟩
        · obtain ⟨e', he', rest'⟩ := ih h'
          exact ⟨e', List.mem_cons_of_mem e he', rest'⟩
      · cases hp : env.patch e.id (candidateTitle env e) with
        | ok u =>
          cases u
          rw [processEvents_cons_patched rest hb he hp] at ha
          rcases List.mem_cons.mp ha with h' | h'
          · subst h'
            exact ⟨e, List.mem_cons_self e rest, rfl,
              by simp [EventAction.isSkip], fun _ => Int.not_lt.mp hb,
              fun _ => he⟩
          · obtain ⟨e', he', rest'⟩ := ih h'
            exact ⟨e', List.mem_cons_of_mem e he', rest'⟩
        | error err =>
          rw [processEvents_cons_patchFailed rest hb he hp] at ha
          rcases List.mem_cons.mp ha with h' | h'
          · subst h'
            exact ⟨e, List.mem_cons_self e rest, rfl,
              by simp [EventAction.isSkip], fun _ => Int.not_lt.mp hb,
              fun _ => he⟩
          · simp at h'

theorem cycle_zero (env : Env) (tok : Option String) (st : SyncState) :
    updateCalendarEvents env 0 tok st = (st, ⟨[], [], [], none, true⟩) := rfl

theorem cycle_gone {env : Env} {tok : Option String} (fuel : Nat)
    (st : SyncState)
    (hf : env.fetch (buildListParams tok env.now (env.now + 7 * msPerDay)) =
      .error .gone) :
    updateCalendarEvents env (fuel + 1) tok st =
      ((updateCalendarEvents env fuel none ⟨none⟩).1,
       ⟨buildListParams tok env.now (env.now + 7 * msPerDay) ::
          (updateCalendarEvents env fuel none ⟨none⟩).2.fetches,
        (updateCalendarEvents env fuel none ⟨none⟩).2.captured,
        (updateCalendarEvents env fuel none ⟨none⟩).2.actions,
        (updateCalendarEvents env fuel none ⟨none⟩).2.surfaced,
        (updateCalendarEvents env fuel none ⟨none⟩).2.exhausted⟩) := by
  simp only [updateCalendarEvents]
  rw [hf]

theorem cycle_transport {env : Env} {tok : Option String} (fuel : Nat)
    (st : SyncState) {m : String}
    (hf : env.fetch (buildListParams tok env.now (env.now + 7 * msPerDay)) =
      .error (.transport m)) :
    updateCalendarEvents env (fuel + 1) tok st =
      (st, ⟨[buildListParams tok env.now (env.now + 7 * msPerDay)],
        [], [], some (.transport m), false⟩) := by
  simp only [updateCalendarEvents]
  rw [hf]

theorem cycle_ok_none {env : Env} {tok : Option String} (fuel : Nat)
    (st : SyncState) {resp : ListResponse} {acts : List EventAction}
    (hf : env.fetch (buildListParams tok env.now (env.now + 7 * msPerDay)) =
      .ok resp)
    (hp : processEvents env (env.now + 7 * msPerDay) resp.items = (acts, none)) :
    updateCalendarEvents env (fuel + 1) tok st =
      (⟨resp.nextSyncToken⟩,
       ⟨[buildListParams tok env.now (env.now + 7 * msPerDay)],
        [resp.nextSyncToken], acts, none, false⟩) := by
  simp only [updateCalendarEvents, hf, hp]

theorem cycle_ok_patch_transport {env : Env} {tok : Option String}
    (fuel : Nat) (st : SyncState) {resp : ListResponse}
    {acts : List EventAction} {m : String}
    (hf : env.fetch (buildListParams tok env.now (env.now + 7 * msPerDay)) =
      .ok resp)
    (hp : processEvents env (env.now + 7 * msPerDay) resp.items =
      (acts, some (.transport m))) :
    updateCalendarEvents env (fuel + 1) tok st =
      (⟨resp.nextSyncToken⟩,
       ⟨[buildListParams tok env.now (env.now + 7 * msPerDay)],
        [resp.nextSyncToken], acts, some (.transport m), false⟩) := by
  simp only [updateCalendarEvents, hf, hp]

theorem cycle_ok_patch_gone {env : Env} {tok : Option String} (fuel : Nat)
    (st : SyncState) {resp : ListResponse} {acts : List EventAction}
    (hf : env.fetch (buildListParams tok env.now (env.now + 7 * msPerDay)) =
      .ok resp)
    (hp : processEvents env (env.now + 7 * msPerDay) resp.items =
      (acts, some .gone)) :
    updateCalendarEvents env (fuel + 1) tok st =
      ((updateCalendarEvents env fuel none ⟨none⟩).1,
       ⟨buildListParams tok env.now (env.now + 7 * msPerDay) ::
          (updateCalendarEvents env fuel none ⟨none⟩).2.fetches,
        resp.nextSyncToken :: (updateCalendarEvents env fuel none ⟨none⟩).2.captured,
        acts ++ (updateCalendarEvents env fuel none ⟨none⟩).2.actions,
        (updateCalendarEvents env fuel none ⟨none⟩).2.surfaced,
        (updateCalendarEvents env fuel none ⟨none⟩).2.exhausted⟩) := by
  simp only [updateCalendarEvents, hf, hp]

/-- Actions of any cycle attempt come from events of a successful fetch;
non-skipped ones lie within the 7-day bound, skipped ones beyond it. -/
theorem cycle_actions_sound {env : Env} : ∀ (fuel : Nat) (tok : Option String)
    (st : SyncState) (a : EventAction),
    a ∈ (updateCalendarEvents env fuel tok st).2.actions →
    ∃ p resp e, env.fetch p = .ok resp ∧ e ∈ resp.items ∧ a.idOf = e.id ∧
      (a.isSkip = false → e.start ≤ env.now + 7 * msPerDay) ∧
      (a.isSkip = true → env.now + 7 * msPerDay < e.start) := by
  intro fuel
  induction fuel with
  | zero => intro tok st a ha; rw [cycle_zero] at ha; simp at ha
  | succ fuel ih =>
    intro tok st a ha
    cases hf : env.fetch (buildListParams tok env.now (env.now + 7 * msPerDay)) with
    | error err =>
      cases err with
      | gone =>
        rw [cycle_gone fuel st hf] at ha
        have ha' : a ∈ (updateCalendarEvents env fuel none ⟨none⟩).2.actions := ha
        exact ih none ⟨none⟩ a ha'
      | transport m =>
        rw [cycle_transport fuel st hf] at ha
        simp at ha
    | ok resp =>
      rcases hpp : processEvents env (env.now + 7 * msPerDay) resp.items with ⟨acts, r⟩
      have hof : ∀ a', a' ∈ acts →
          ∃ p resp' e, env.fetch p = .ok resp' ∧ e ∈ resp'.items ∧ a'.idOf = e.id ∧
            (a'.isSkip = false → e.start ≤ env.now + 7 * msPerDay) ∧
            (a'.isSkip = true → env.now + 7 * msPerDay < e.start) := by
        intro a' ha'
        have hmem : a' ∈ (processEvents env (env.now + 7 * msPerDay) resp.items).1 := by
          rw [hpp]; exact ha'
        obtain ⟨e, he, hid, h1, h2, _⟩ := processEvents_sound hmem
        exact ⟨buildListParams tok env.now (env.now + 7 * msPerDay), resp, e,
          hf, he, hid, h2, h1⟩
      cases r with
      | none =>
        rw [cycle_ok_none fuel st hf hpp] at ha
        exact hof a ha
      | some e' =>
        cases e' with
        | gone =>
          rw [cycle_ok_patch_gone fuel st hf hpp] at ha
          have ha' : a ∈ acts ++ (updateCalendarEvents env fuel none ⟨none⟩).2.actions := ha
          rcases List.mem_append.mp ha' with h' | h'
          · exact hof a h'
          · exact ih none ⟨none⟩ a h'
        | transport m =>
          rw [cycle_ok_patch_transport fuel st hf hpp] at ha
          exact hof a ha

/-- The first `events.list` call of a cycle always carries the params
built from the token the cycle was invoked with. -/
theorem cycle_fetches_head (env : Env) (fuel : Nat) (tok : Option String)
    (st : SyncState) :
    (updateCalendarEvents env (fuel + 1) tok st).2.fetches.head? =
      some (buildListParams tok env.now (env.now + 7 * msPerDay)) := by
  cases hf : env.fetch (buildListParams tok env.now (env.now + 7 * msPerDay)) with
  | error err =>
    cases err with
    | gone => rw [cycle_gone fuel st hf]; rfl
    | transport m => rw [cycle_transport fuel st hf]; rfl
  | ok resp =>
    rcases hpp : processEvents env (env.now + 7 * msPerDay) resp.items with ⟨acts, r⟩
    cases r with
    | none => rw [cycle_ok_none fuel st hf hpp]; rfl
    | some e' =>
      cases e' with
      | gone => rw [cycle_ok_patch_gone fuel st hf hpp]; rfl
      | transport m => rw [cycle_ok_patch_transport fuel st hf hpp]; rfl

/-- A falsy token (absent or empty) leaves the params in range mode with
explicit bounds. -/
theorem buildListParams_falsy {t : Option String} (h : tokenTruthy t = false)
    (a b : Int) : buildListParams t a b = ⟨none, some a, some b⟩ := by
  simp [buildListParams, h]

/-! ## The claims about the sync engine -/

/-- **C7 — confirmed.** Fetch-error atomicity: a cycle whose fetch fails
with an error other than token invalidation aborts with no event
processed (no actions at all, hence no weather lookup and no patch),
`lastSyncToken` keeps exactly the value it had before the cycle, and the
failure is reported (`surfaced`, the `console.error` of line 415) rather
than thrown further. -/
theorem fetch_error_atomic (env : Env) (fuel : Nat) (tok : Option String)
    (st : SyncState) (m : String)
    (hf : env.fetch (buildListParams tok env.now (env.now + 7 * msPerDay)) =
      .error (.transport m)) :
    updateCalendarEvents env (fuel + 1) tok st =
      (st, ⟨[buildListParams tok env.now (env.now + 7 * msPerDay)],
        [], [], some (.transport m), false⟩) :=
  cycle_transport fuel st hf

/-- Witness for `fetch_error_atomic`. -/
theorem fetch_error_atomic_witness :
    updateCalendarEvents envC7w 1 (some "t") ⟨some "t"⟩ =
      (⟨some "t"⟩,
       ⟨[buildListParams (some "t") envC7w.now (envC7w.now + 7 * msPerDay)],
        [], [], some (.transport "ECONNRESET"), false⟩) :=
  fetch_error_atomic envC7w 0 (some "t") ⟨some "t"⟩ "ECONNRESET" rfl

/-- **C5 — amended.** Token lifecycle on success: a successful fetch
captures its returned next-token into `lastSyncToken` immediately (first
entry of `captured`), unconditionally — with zero events the cycle ends
right there with that token and no event processed. The cycle's *final*
token also equals that value, **unless** a patch later throws the 410
token-invalidation status, in which case the `catch` launches a full
resync whose own token wins (see `token_capture_cex`). -/
theorem token_capture (env : Env) (fuel : Nat) (tok : Option String)
    (st : SyncState) (resp : ListResponse)
    (hf : env.fetch (buildListParams tok env.now (env.now + 7 * msPerDay)) =
      .ok resp) :
    (updateCalendarEvents env (fuel + 1) tok st).2.captured.head? =
      some resp.nextSyncToken
    ∧ (resp.items = [] →
       updateCalendarEvents env (fuel + 1) tok st =
         (⟨resp.nextSyncToken⟩,
          ⟨[buildListParams tok env.now (env.now + 7 * msPerDay)],
           [resp.nextSyncToken], [], none, false⟩))
    ∧ (∀ acts r, processEvents env (env.now + 7 * msPerDay) resp.items = (acts, r) →
       r ≠ some .gone →
       (updateCalendarEvents env (fuel + 1) tok st).1 = ⟨resp.nextSyncToken⟩) := by
  refine ⟨?_, ?_, ?_⟩
  · rcases hpp : processEvents env (env.now + 7 * msPerDay) resp.items with ⟨acts, r⟩
    cases r with
    | none => rw [cycle_ok_none fuel st hf hpp]; rfl
    | some e' =>
      cases e' with
      | gone => rw [cycle_ok_patch_gone fuel st hf hpp]; rfl
      | transport m => rw [cycle_ok_patch_transport fuel st hf hpp]; rfl

  · intro hnil
    have hpp : processEvents env (env.now + 7 * msPerDay) resp.items = ([], none) := by
      rw [hnil]; rfl
    exact cycle_ok_none fuel st hf hpp
  · intro acts r hpp hng
    cases r with
    | none => rw [cycle_ok_none fuel st hf hpp]
    | some e' =>
      cases e' with
      | gone => exact absurd rfl hng
      | transport m => rw [cycle_ok_patch_transport fuel st hf hpp]

/-- Witness for `token_capture`: a zero-event fetch still updates the
token. -/
theorem token_capture_witness :
    updateCalendarEvents envC5w 1 none ⟨none⟩ =
      (⟨some "T"⟩,
       ⟨[buildListParams none envC5w.now (envC5w.now + 7 * msPerDay)],
        [some "T"], [], none, false⟩) :=
  (token_capture envC5w 0 none ⟨none⟩ ⟨some "T", []⟩ rfl).2.1 rfl

/-- **C5 — counterexample.** The claim's "currentToken afterwards equals
the fetch's next-token, unconditionally" fails: here the cycle's fetch
succeeds with next-token "A", but the single event's patch throws 410, the
`catch` reruns a full sync whose fetch returns next-token "B", and the
cycle ends with `lastSyncToken = "B" ≠ "A"`. -/
theorem token_capture_cex :
    envC5.fetch (buildListParams (some "t") envC5.now (envC5.now + 7 * msPerDay)) =
      .ok ⟨some "A", [evC5]⟩ ∧
    (updateCalendarEvents envC5 2 (some "t") ⟨some "t"⟩).1 = ⟨some "B"⟩ ∧
    (some "B" : Option String) ≠ some "A" := by
  refine ⟨rfl, ?_, by decide⟩
  decide

/-- **C3 — amended.** Token-invalidation recovery: on a 410 fetch failure
the engine clears `lastSyncToken` and retries the sync as a token-less
full-range fetch (explicit bounds, no token); if the retry's fetch
succeeds, `currentToken` is set from the retry's next-token, and if the
retry fails with a *non-410* error that error is surfaced with no third
fetch. But the retry is **not** capped at one level: a retry failing with
410 again recurses (see `token_invalidation_recovery_cex`). -/
theorem token_invalidation_recovery (env : Env) (fuel : Nat)
    (tok : Option String) (st : SyncState)
    (hf : env.fetch (buildListParams tok env.now (env.now + 7 * msPerDay)) =
      .error .gone) :
    ((buildListParams none env.now (env.now + 7 * msPerDay)).syncToken = none
      ∧ (buildListParams none env.now (env.now + 7 * msPerDay)).timeMin = some env.now
      ∧ (buildListParams none env.now (env.now + 7 * msPerDay)).timeMax =
          some (env.now + 7 * msPerDay))
    ∧ (∀ resp acts,
        env.fetch (buildListParams none env.now (env.now + 7 * msPerDay)) = .ok resp →
        processEvents env (env.now + 7 * msPerDay) resp.items = (acts, none) →
        updateCalendarEvents env (fuel + 2) tok st =
          (⟨resp.nextSyncToken⟩,
           ⟨[buildListParams tok env.now (env.now + 7 * msPerDay),
             buildListParams none env.now (env.now + 7 * msPerDay)],
            [resp.nextSyncToken], acts, none, false⟩))
    ∧ (∀ m, env.fetch (buildListParams none env.now (env.now + 7 * msPerDay)) =
          .error (.transport m) →
        updateCalendarEvents env (fuel + 2) tok st =
          (⟨none⟩,
           ⟨[buildListParams tok env.now (env.now + 7 * msPerDay),
             buildListParams none env.now (env.now + 7 * msPerDay)],
            [], [], some (.transport m), false⟩)) := by
  refine ⟨⟨rfl, rfl, rfl⟩, ?_, ?_⟩
  · intro resp acts hf2 hp
    have h1 : updateCalendarEvents env (fuel + 1) none ⟨none⟩ =
        (⟨resp.nextSyncToken⟩,
         ⟨[buildListParams none env.now (env.now + 7 * msPerDay)],
          [resp.nextSyncToken], acts, none, false⟩) :=
      cycle_ok_none fuel ⟨none⟩ hf2 hp
    rw [show fuel + 2 = (fuel + 1) + 1 from rfl, cycle_gone (fuel + 1) st hf, h1]
  · intro m hf2
    have h1 : updateCalendarEvents env (fuel + 1) none ⟨none⟩ =
        (⟨none⟩,
         ⟨[buildListParams none env.now (env.now + 7 * msPerDay)],
          [], [], some (.transport m), false⟩) :=
      cycle_transport fuel ⟨none⟩ hf2
    rw [show fuel + 2 = (fuel + 1) + 1 from rfl, cycle_gone (fuel + 1) st hf, h1]

/-- Witness for `token_invalidation_recovery`: exactly two fetches, the
second token-less, and the retry's token "B" is captured. -/
theorem token_invalidation_recovery_witness :
    updateCalendarEvents envC3 2 (some "t") ⟨some "t"⟩ =
      (⟨some "B"⟩,
       ⟨[buildListParams (some "t") envC3.now (envC3.now + 7 * msPerDay),
         buildListParams none envC3.now (envC3.now + 7 * msPerDay)],
        [some "B"], [], none, false⟩) :=
  (token_invalidation_recovery envC3 0 (some "t") ⟨some "t"⟩ rfl).2.1
    ⟨some "B", []⟩ [] rfl rfl

/-- **C3 — counterexample.** "Exactly one retry, not recursive beyond one
level, the error surfaced if the retry fails" is false: when the full-range
retry also fails with 410, the `catch` recurses again — with fuel 3 one
cycle has already issued three `events.list` calls, surfaced nothing, and
is still recursing when the model cuts it off. -/
theorem token_invalidation_recovery_cex :
    (updateCalendarEvents envC3cex 3 (some "t") ⟨some "t"⟩).2.fetches.length = 3 ∧
    (updateCalendarEvents envC3cex 3 (some "t") ⟨some "t"⟩).2.surfaced = none ∧
    (updateCalendarEvents envC3cex 3 (some "t") ⟨some "t"⟩).2.exhausted = true := by
  decide

/-- **C2 — amended.** Partial-failure **non**-isolation: the `try` block
wraps the whole event loop, so when the patch of event K fails with a
transport error the exception aborts the loop at K: the report shows the
actions of events 1..K-1, then `patchFailed` for K, and **nothing** for
events K+1..N — they get no weather lookup and no patch in that cycle.
The single error is surfaced once; no per-event failure count exists. (A
patch failing with 410 instead triggers the full-resync retry.) -/
theorem patch_failure_aborts (env : Env) (fuel : Nat) (tok : Option String)
    (st : SyncState) (resp : ListResponse) (pre : List Event) (e : Event)
    (rest : List Event) (m : String)
    (hf : env.fetch (buildListParams tok env.now (env.now + 7 * msPerDay)) =
      .ok resp)
    (hitems : resp.items = pre ++ e :: rest)
    (hpre : (processEvents env (env.now + 7 * msPerDay) pre).2 = none)
    (hb : ¬ env.now + 7 * msPerDay < e.start)
    (hne : candidateTitle env e ≠ e.summary)
    (hp : env.patch e.id (candidateTitle env e) = .error (.transport m)) :
    updateCalendarEvents env (fuel + 1) tok st =
      (⟨resp.nextSyncToken⟩,
       ⟨[buildListParams tok env.now (env.now + 7 * msPerDay)],
        [resp.nextSyncToken],
        (processEvents env (env.now + 7 * msPerDay) pre).1 ++ [.patchFailed e.id],
        some (.transport m), false⟩) := by
  have h1 : processEvents env (env.now + 7 * msPerDay) (e :: rest) =
      ([.patchFailed e.id], some (.transport m)) :=
    processEvents_cons_patchFailed rest hb hne hp
  have h2 : processEvents env (env.now + 7 * msPerDay) resp.items =
      ((processEvents env (env.now + 7 * msPerDay) pre).1 ++ [.patchFailed e.id],
       some (.transport m)) := by
    rw [hitems, processEvents_append_ok (e :: rest) hpre, h1]
  exact cycle_ok_patch_transport fuel st hf h2

/-- Witness for `patch_failure_aborts`: of three events, the first is
patched, the second's patch fails, the third is never touched. -/
theorem patch_failure_aborts_witness :
    updateCalendarEvents envC2w 1 none ⟨none⟩ =
      (⟨some "T"⟩,
       ⟨[buildListParams none envC2w.now (envC2w.now + 7 * msPerDay)],
        [some "T"],
        [.patched "e0" "Z (w, 1°C)", .patchFailed "e1"],
        some (.transport "boom"), false⟩) := by
  have h := patch_failure_aborts envC2w 0 none ⟨none⟩
    ⟨some "T", [evC2z, evC2a, evC2b]⟩ [evC2z] evC2a [evC2b] "boom"
    rfl rfl (by decide) (by decide) (by decide) rfl
  exact h.trans (by decide)

/-- **C2 — counterexample.** With two events where the first patch fails
with a transport error, the report holds `patchFailed "e1"` and **no
action at all** for event "e2": it was not processed, and the failure
count the claim demands does not exist — refuting "events K+1..N are
still processed". -/
theorem patch_failure_aborts_cex :
    updateCalendarEvents envC2 1 none ⟨none⟩ =
      (⟨some "T"⟩,
       ⟨[buildListParams none envC2.now (envC2.now + 7 * msPerDay)],
        [some "T"], [.patchFailed "e1"], some (.transport "boom"), false⟩) := by
  decide

/-- **C6 — confirmed.** No redundant writes: every issued patch call
(successful or failed) belongs to an event whose candidate title
`compose(strip(summary), descriptor)` differs from the current summary;
and an event whose candidate equals its summary produces exactly an
`unchanged` action — no patch call — while processing continues with the
rest. -/
theorem no_redundant_writes (env : Env) (timeMax : Int) (l : List Event) :
    (∀ a ∈ (processEvents env timeMax l).1, a.isPatchCall = true →
      ∃ e, e ∈ l ∧ a.idOf = e.id ∧ candidateTitle env e ≠ e.summary)
    ∧ (∀ (e : Event) (rest : List Event), ¬ timeMax < e.start →
        candidateTitle env e = e.summary →
        processEvents env timeMax (e :: rest) =
          (.unchanged e.id :: (processEvents env timeMax rest).1,
           (processEvents env timeMax rest).2)) := by
  constructor
  · intro a ha hpc
    obtain ⟨e, he, hid, _, _, hcand⟩ := processEvents_sound ha
    exact ⟨e, he, hid, hcand hpc⟩
  · intro e rest hb he
    exact processEvents_cons_unchanged rest hb he

/-- Witness for `no_redundant_writes`: the patched action of a concrete
run is traced back to an event whose candidate differs from its title. -/
theorem no_redundant_writes_witness :
    ∃ e, e ∈ [evC6] ∧ (EventAction.patched "e1" "Standup (w, 1°C)").idOf = e.id ∧
      candidateTitle envC6w e ≠ e.summary :=
  (no_redundant_writes envC6w (envC6w.now + 7 * msPerDay) [evC6]).1
    (.patched "e1" "Standup (w, 1°C)") (by decide) (by decide)

/-- **C9 — confirmed.** Upper-bound filter in every mode: the skip of an
event past the 7-day bound happens before any weather lookup (first
conjunct: the loop step for such an event is exactly a `skipped` action),
and in any cycle — the token argument `tok` ranges over token-based and
range mode alike — every non-skip action (lookup, patch, or unchanged)
belongs to a fetched event whose start is within the bound computed at
the start of the cycle; a truthy token moreover sends no time bounds at
all, so the local filter is the only bound in that mode. -/
theorem upper_bound_filter (env : Env) (fuel : Nat) (tok : Option String)
    (st : SyncState) :
    (∀ (e : Event) (rest : List Event), env.now + 7 * msPerDay < e.start →
      processEvents env (env.now + 7 * msPerDay) (e :: rest) =
        (.skipped e.id :: (processEvents env (env.now + 7 * msPerDay) rest).1,
         (processEvents env (env.now + 7 * msPerDay) rest).2))
    ∧ (tokenTruthy tok = true →
        buildListParams tok env.now (env.now + 7 * msPerDay) = ⟨tok, none, none⟩)
    ∧ (∀ a, a ∈ (updateCalendarEvents env fuel tok st).2.actions →
        a.isSkip = false →
        ∃ p resp e, env.fetch p = .ok resp ∧ e ∈ resp.items ∧
          a.idOf = e.id ∧ e.start ≤ env.now + 7 * msPerDay) := by
  refine ⟨?_, ?_, ?_⟩
  · intro e rest h
    exact processEvents_cons_skip rest h
  · intro h
    simp [buildListParams, h]
  · intro a ha hs
    obtain ⟨p, resp, e, h1, h2, h3, h4, _⟩ := cycle_actions_sound fuel tok st a ha
    exact ⟨p, resp, e, h1, h2, h3, h4 hs⟩

/-- Witness for `upper_bound_filter`: in a run whose fetch returns one
in-bound and one out-of-bound event, the non-skip action is traced to the
in-bound event. -/
theorem upper_bound_filter_witness :
    ∃ p resp e, envC9w.fetch p = .ok resp ∧ e ∈ resp.items ∧
      (EventAction.unchanged "e1").idOf = e.id ∧
      e.start ≤ envC9w.now + 7 * msPerDay :=
  (upper_bound_filter envC9w 1 (some "t") ⟨some "t"⟩).2.2 (.unchanged "e1")
    (by decide) (by decide)

/-- **C10 — amended.** Empty-token fallback: when a successful fetch
carries an absent or empty next-token (`tokenTruthy` false) **and no
subsequent patch of that cycle fails with the 410 token-invalidation
status**, that falsy value is the cycle's final token, and the next
`watchForChanges` cycle — invoked with the stored token — issues a
full-range fetch with explicit `timeMin`/`timeMax` bounds and no token.
Without the added condition the claim is false: a 410-rejecting patch
reruns the sync, whose own next-token overwrites the falsy one, and a
truthy replacement makes the next cycle token-based with no bounds (see
`empty_token_fallback_cex`). -/
theorem empty_token_fallback (env : Env) (f g : Nat) (tok₀ : Option String)
    (st₀ : SyncState) (resp : ListResponse) (acts : List EventAction)
    (r : Option CalendarError)
    (hf : env.fetch (buildListParams tok₀ env.now (env.now + 7 * msPerDay)) =
      .ok resp)
    (hp : processEvents env (env.now + 7 * msPerDay) resp.items = (acts, r))
    (hng : r ≠ some .gone)
    (hfalsy : tokenTruthy resp.nextSyncToken = false) :
    (updateCalendarEvents env (f + 1) tok₀ st₀).1 = ⟨resp.nextSyncToken⟩
    ∧ (watchForChanges env (g + 1)
        (updateCalendarEvents env (f + 1) tok₀ st₀).1).2.fetches.head?
        = some ⟨none, some env.now, some (env.now + 7 * msPerDay)⟩ := by
  have h1 : (updateCalendarEvents env (f + 1) tok₀ st₀).1 = ⟨resp.nextSyncToken⟩ := by
    cases r with
    | none => rw [cycle_ok_none f st₀ hf hp]
    | some e' =>
      cases e' with
      | gone => exact absurd rfl hng
      | transport m => rw [cycle_ok_patch_transport f st₀ hf hp]
  refine ⟨h1, ?_⟩
  rw [h1]
  have h2 := cycle_fetches_head env g resp.nextSyncToken ⟨resp.nextSyncToken⟩
  rw [buildListParams_falsy hfalsy] at h2
  exact h2

/-- Witness for `empty_token_fallback` at an empty-string next-token. -/
theorem empty_token_fallback_witness :
    (updateCalendarEvents envC10w 1 (some "t") ⟨some "t"⟩).1 = ⟨some ""⟩ ∧
    (watchForChanges envC10w 1
      (updateCalendarEvents envC10w 1 (some "t") ⟨some "t"⟩).1).2.fetches.head?
      = some ⟨none, some envC10w.now, some (envC10w.now + 7 * msPerDay)⟩ :=
  empty_token_fallback envC10w 0 0 (some "t") ⟨some "t"⟩ ⟨some "", []⟩ [] none
    rfl rfl (by decide) (by decide)

/-- **C10 — counterexample.** The unqualified claim fails: here the
cycle's fetch succeeds with the empty (falsy) next-token `""`, but the
single event's patch rejects with 410, so the `catch` reruns a full sync
whose next-token `"R"` overwrites the falsy value — the cycle ends with
the truthy token `"R"`, and the next `watchForChanges` cycle issues a
**token-based** fetch with no time bounds instead of the claimed
full-range bounded fetch. -/
theorem empty_token_fallback_cex :
    envC10cex.fetch (buildListParams (some "t") envC10cex.now
        (envC10cex.now + 7 * msPerDay)) = .ok ⟨some "", [evC10]⟩ ∧
    tokenTruthy (some "") = false ∧
    (updateCalendarEvents envC10cex 2 (some "t") ⟨some "t"⟩).1 = ⟨some "R"⟩ ∧
    (watchForChanges envC10cex 1
        (updateCalendarEvents envC10cex 2 (some "t") ⟨some "t"⟩).1).2.fetches.head?
      = some ⟨some "R", none, none⟩ := by
  refine ⟨rfl, by decide, ?_, ?_⟩ <;> decide

/-- **C8 — amended.** Far-horizon degradation: a forecast lookup whose
target time is more than 14 days ahead of now returns the sentinel
`"(forecast unavailable)"` without raising an error (the guard runs before
the network call, and `getWeatherInfo` is total), and the composed title
ends in `"(forecast unavailable)"` — not `"(weather unavailable)"`, which
the source reserves for a failed lookup (see
`far_horizon_unavailable_cex`). -/
theorem far_horizon_unavailable (now eventDate : Int) (dateKey : String)
    (eventHour : Nat) (resp : Except String ForecastResponse) (c : String)
    (h : 14 * msPerDay < eventDate - now) :
    getWeatherInfo now eventDate dateKey eventHour resp = "(forecast unavailable)"
    ∧ ∃ p, composeTitle c (getWeatherInfo now eventDate dateKey eventHour resp)
        = p ++ "(forecast unavailable)" := by
  have hb : (0 : Int) < msPerDay := by decide
  have h2 : -(eventDate - now) ≤ -(14 * msPerDay) - 1 := by omega
  have h3 : (-(eventDate - now)).fdiv msPerDay = -(eventDate - now) / msPerDay :=
    Int.fdiv_eq_ediv _ (Int.le_of_lt hb)
  have h4 : -(eventDate - now) / msPerDay ≤ (-(14 * msPerDay) - 1) / msPerDay :=
    Int.ediv_le_ediv hb h2
  have h5 : (-(14 * msPerDay) - 1) / msPerDay = -15 := by decide
  have hceil : 14 < jsCeilDiv (eventDate - now) msPerDay := by
    rw [h5] at h4
    unfold jsCeilDiv
    rw [h3]
    omega
  have h1 : getWeatherInfo now eventDate dateKey eventHour resp =
      "(forecast unavailable)" := by
    unfold getWeatherInfo
    rw [if_pos hceil]
  exact ⟨h1, c ++ " ", by rw [h1]; rfl⟩

/-- Witness for `far_horizon_unavailable` at a target 20 days out. -/
theorem far_horizon_unavailable_witness :
    getWeatherInfo 0 (20 * msPerDay) "d" 0 (.ok ⟨[]⟩) = "(forecast unavailable)"
    ∧ ∃ p, composeTitle "Standup" (getWeatherInfo 0 (20 * msPerDay) "d" 0 (.ok ⟨[]⟩))
        = p ++ "(forecast unavailable)" :=
  far_horizon_unavailable 0 (20 * msPerDay) "d" 0 (.ok ⟨[]⟩) "Standup" (by decide)

/-- **C8 — counterexample.** At 20 days out the lookup returns
`"(forecast unavailable)"`, so the composed title does **not** end in the
claimed placeholder `"(weather unavailable)"`. -/
theorem far_horizon_unavailable_cex :
    getWeatherInfo 0 (20 * msPerDay) "d" 0 (.ok ⟨[]⟩) = "(forecast unavailable)"
    ∧ endsWithStr (composeTitle "Standup"
        (getWeatherInfo 0 (20 * msPerDay) "d" 0 (.ok ⟨[]⟩)))
        "(weather unavailable)" = false
    ∧ endsWithStr (composeTitle "Standup"
        (getWeatherInfo 0 (20 * msPerDay) "d" 0 (.ok ⟨[]⟩)))
        "(forecast unavailable)" = true := by
  decide

end CalendarWeather
